import Mathlib

/-!
# Confirmation tracker of NFT-Algorand-Golang (`waitForConfirmation`, src/main.go:20-60)

Shallow embedding of the polling loop that waits for a submitted transaction
to be confirmed, rejected, or to run out of rounds.

* Go `uint64` values are natural numbers; every addition of the source is
  taken modulo `2^64`.
* A Go `error` is its message (`err.Error()`); `nil` is `none`.
* The algod client is external.  Its behaviour in one run is given by the
  reply to the status query and the replies to the n-th pending-transaction
  query and the n-th round-wait (n counted from 1), each of which may depend
  on the argument of the call.
* Every call made on the client is appended to a log, in order.
* Console output (`fmt.Printf`) is not part of the model.
-/

namespace NFTAlgorand

/-- Modulus of Go `uint64` arithmetic. -/
def u64 : Nat := 18446744073709551616

/-- The field of `models.NodeStatus` that `waitForConfirmation` reads. -/
structure NodeStatus where
  lastRound : Nat
  deriving DecidableEq, Repr

/-- The fields of `models.PendingTransactionInfoResponse` that
`waitForConfirmation` reads. -/
structure PendingTransactionInfoResponse where
  confirmedRound : Nat
  poolError : String
  deriving DecidableEq, Repr

/-- Result of `new(models.PendingTransactionInfoResponse)`: the zero value. -/
def zeroResponse : PendingTransactionInfoResponse := ⟨0, ""⟩

/-- Reply of `client.Status().Do` and of `client.StatusAfterBlock(r).Do`. -/
structure StatusReply where
  status : NodeStatus
  err : Option String
  deriving DecidableEq, Repr

/-- Reply of `client.PendingTransactionInformation(txID).Do` (the signed
transaction it also returns is discarded by the caller). -/
structure PendingReply where
  response : PendingTransactionInfoResponse
  err : Option String
  deriving DecidableEq, Repr

/-- One call made on the algod client, with its argument. -/
inductive Call where
  | status
  | pendingTransactionInformation (txID : String)
  | statusAfterBlock (round : Nat)
  deriving DecidableEq, Repr

/-- Behaviour of an algod client during one run. -/
structure Client where
  status : StatusReply
  pendingTransactionInformation : Nat → String → PendingReply
  statusAfterBlock : Nat → Nat → StatusReply

/-- Go `strings.Join(elems, sep)`. -/
def stringsJoin (elems : List String) (sep : String) : String :=
  sep.intercalate elems

/-- Number of pending-transaction queries in a call log. -/
def pendingCount (calls : List Call) : Nat :=
  calls.countP fun c => match c with
    | Call.pendingTransactionInformation _ => true
    | _ => false

/-- Number of round-waits in a call log. -/
def waitCount (calls : List Call) : Nat :=
  calls.countP fun c => match c with
    | Call.statusAfterBlock _ => true
    | _ => false

/-- Number of status queries in a call log. -/
def statusCount (calls : List Call) : Nat :=
  calls.countP fun c => match c with
    | Call.status => true
    | _ => false

/-- Rounds for which the round-waits of a call log were issued, in order. -/
def waitRounds (calls : List Call) : List Nat :=
  calls.filterMap fun c => match c with
    | Call.statusAfterBlock r => some r
    | _ => none

/-- What `waitForConfirmation` returns, with the log of client calls made. -/
structure Result where
  pt : PendingTransactionInfoResponse
  err : Option String
  calls : List Call
  deriving DecidableEq, Repr

/-- Local variables of `waitForConfirmation` at the head of its loop, with the
log of client calls made so far. -/
structure LoopState where
  pt : PendingTransactionInfoResponse
  status : NodeStatus
  err : Option String
  currentRound : Nat
  calls : List Call
  deriving DecidableEq, Repr

/-- Outcome of one execution of the loop body. -/
inductive Step where
  | done (r : Result)
  | next (s : LoopState)
  deriving DecidableEq, Repr

/-- Loop body, src/main.go:39-56. -/
def loopBody (client : Client) (txID : String) (s : LoopState) : Step :=
  let reply := client.pendingTransactionInformation (pendingCount s.calls + 1) txID
  let calls := s.calls ++ [Call.pendingTransactionInformation txID]
  let pt := reply.response
  match reply.err with
  | some e =>
      Step.done ⟨pt, some (stringsJoin ["error getting pending transaction: "] e), calls⟩
  | none =>
      if pt.confirmedRound > 0 then
        Step.done ⟨pt, none, calls⟩
      else if pt.poolError ≠ "" then
        Step.done ⟨pt, some "There was a pool error, then the transaction has been rejected", calls⟩
      else
        let w := client.statusAfterBlock (waitCount calls + 1) s.currentRound
        Step.next
          { pt := pt
            status := w.status
            err := w.err
            currentRound := (s.currentRound + 1) % u64
            calls := calls ++ [Call.statusAfterBlock s.currentRound] }

/-- Value of `startRound + timeout` in the loop condition, src/main.go:37. -/
def deadlineRound (startRound timeout : Nat) : Nat :=
  (startRound + timeout) % u64

/-- The loop `for currentRound < (startRound + timeout)` and the return that
follows it, src/main.go:37-59. -/
def waitLoop (client : Client) (txID : String) (startRound timeout : Nat)
    (s : LoopState) : Result :=
  if s.currentRound < deadlineRound startRound timeout then
    match h : loopBody client txID s with
    | Step.done r => r
    | Step.next s' => waitLoop client txID startRound timeout s'
  else
    ⟨s.pt, some "Tx not found in round range", s.calls⟩
termination_by deadlineRound startRound timeout - s.currentRound
decreasing_by
  rename_i hlt
  have hd : deadlineRound startRound timeout < u64 := Nat.mod_lt _ (by decide)
  have hc : s'.currentRound = (s.currentRound + 1) % u64 := by
    unfold loopBody at h
    simp only at h
    split at h
    · cases h
    · split at h
      · cases h
      · split at h
        · cases h
        · cases h; rfl
  rw [hc, Nat.mod_eq_of_lt (by omega)]
  omega

/-- Loop state on entry to the loop, src/main.go:34-35. -/
def initState (status : NodeStatus) (pt : PendingTransactionInfoResponse)
    (calls : List Call) : LoopState :=
  { pt := pt
    status := status
    err := none
    currentRound := (status.lastRound + 1) % u64
    calls := calls }

/-- The function `waitForConfirmation`, src/main.go:20-60. -/
def waitForConfirmation (txID : String) (client : Option Client) (timeout : Nat) : Result :=
  let pt := zeroResponse
  match client with
  | none => ⟨pt, some "Bad arguments for waitForConfirmation", []⟩
  | some c =>
      if txID = "" ∨ timeout < 0 then
        ⟨pt, some "Bad arguments for waitForConfirmation", []⟩
      else
        let reply := c.status
        let calls := [Call.status]
        match reply.err with
        | some e => ⟨pt, some (stringsJoin ["error getting algod status: "] e), calls⟩
        | none =>
            let startRound := (reply.status.lastRound + 1) % u64
            waitLoop c txID startRound timeout (initState reply.status pt calls)

/-- State at the next loop head after an iteration that neither returns nor
fails: the snapshot is replaced, the round-wait reply is stored, the round is
incremented and both calls are logged. -/
def idleState (client : Client) (txID : String) (s : LoopState) : LoopState :=
  let calls := s.calls ++ [Call.pendingTransactionInformation txID]
  let w := client.statusAfterBlock (waitCount calls + 1) s.currentRound
  { pt := (client.pendingTransactionInformation (pendingCount s.calls + 1) txID).response
    status := w.status
    err := w.err
    currentRound := (s.currentRound + 1) % u64
    calls := calls ++ [Call.statusAfterBlock s.currentRound] }

/-- A pending-transaction reply that lets the loop go on: no transport error,
not confirmed, no pool error. -/
def PendingReply.idle (r : PendingReply) : Prop :=
  r.err = none ∧ r.response.confirmedRound = 0 ∧ r.response.poolError = ""

instance (r : PendingReply) : Decidable r.idle := by
  unfold PendingReply.idle; infer_instance

/-- Calls made by `m` consecutive iterations that go on, the first of them at
round `r`: a pending-transaction query and a round-wait per iteration. -/
def idleLog (txID : String) : Nat → Nat → List Call
  | _, 0 => []
  | r, m + 1 =>
      Call.pendingTransactionInformation txID :: Call.statusAfterBlock r :: idleLog txID (r + 1) m

/-- Loop states of a run: the state on entry and every state reached from it
by an iteration that goes on. -/
inductive Reachable (client : Client) (txID : String) (startRound timeout : Nat)
    (s0 : LoopState) : LoopState → Prop where
  | init : Reachable client txID startRound timeout s0 s0
  | step {s s' : LoopState} :
      Reachable client txID startRound timeout s0 s →
      s.currentRound < deadlineRound startRound timeout →
      loopBody client txID s = Step.next s' →
      Reachable client txID startRound timeout s0 s'

/-- Loop states of a run of `waitForConfirmation txID (some client) timeout`
that gets past argument validation and the status query. -/
def LoopPoint (txID : String) (client : Client) (timeout : Nat) (s : LoopState) : Prop :=
  txID ≠ "" ∧ client.status.err = none ∧
    Reachable client txID ((client.status.status.lastRound + 1) % u64) timeout
      (initState client.status.status zeroResponse [Call.status]) s

/-- Invariant of the loop: the round counter is the start round plus the
number of round-waits so far, without wrapping, and the round-waits so far
were issued for the consecutive rounds from the start round on. -/
def RoundInv (startRound : Nat) (s : LoopState) : Prop :=
  s.currentRound = startRound + waitCount s.calls ∧
    waitRounds s.calls = List.range' startRound (waitCount s.calls)

/-! ## Clients used in the examples -/

/-- Client of the scenario of the specification: the node is at round 100, the
transaction is unconfirmed on the first three polls and confirmed in round 104
on the fourth; every round-wait reports the round after the one waited for. -/
def scenarioClient : Client where
  status := ⟨⟨100⟩, none⟩
  pendingTransactionInformation := fun n _ =>
    if n = 4 then ⟨⟨104, ""⟩, none⟩ else ⟨⟨0, ""⟩, none⟩
  statusAfterBlock := fun _ r => ⟨⟨r + 1⟩, none⟩

/-- Client whose node is at round 100 and rejects the transaction from the
pool on the second poll. -/
def rejectingClient : Client where
  status := ⟨⟨100⟩, none⟩
  pendingTransactionInformation := fun n _ =>
    if n = 2 then ⟨⟨0, "overspend"⟩, none⟩ else ⟨⟨0, ""⟩, none⟩
  statusAfterBlock := fun _ r => ⟨⟨r + 1⟩, none⟩

/-- Client whose node is at round 100 and never confirms or rejects. -/
def silentClient : Client where
  status := ⟨⟨100⟩, none⟩
  pendingTransactionInformation := fun _ _ => ⟨⟨0, ""⟩, none⟩
  statusAfterBlock := fun _ r => ⟨⟨r + 1⟩, none⟩

/-- Client whose node is at round 100 and reports the transaction confirmed in
round 101 on every poll. -/
def readyClient : Client where
  status := ⟨⟨100⟩, none⟩
  pendingTransactionInformation := fun _ _ => ⟨⟨101, ""⟩, none⟩
  statusAfterBlock := fun _ r => ⟨⟨r + 1⟩, none⟩

/-- Client whose status query fails. -/
def downClient : Client where
  status := ⟨⟨0⟩, some "connection refused"⟩
  pendingTransactionInformation := fun _ _ => ⟨⟨0, ""⟩, none⟩
  statusAfterBlock := fun _ r => ⟨⟨r + 1⟩, none⟩

/-- Client whose node is at round 100 and whose second pending-transaction
query fails. -/
def flakyClient : Client where
  status := ⟨⟨100⟩, none⟩
  pendingTransactionInformation := fun n _ =>
    if n = 2 then ⟨⟨0, ""⟩, some "connection reset"⟩ else ⟨⟨0, ""⟩, none⟩
  statusAfterBlock := fun _ r => ⟨⟨r + 1⟩, none⟩

/-- Client whose node is at round 100 and whose every pending-transaction
query fails. -/
def brokenClient : Client where
  status := ⟨⟨100⟩, none⟩
  pendingTransactionInformation := fun _ _ => ⟨⟨0, ""⟩, some "connection reset"⟩
  statusAfterBlock := fun _ r => ⟨⟨r + 1⟩, none⟩

/-- Client like `silentClient` whose every round-wait fails and reports
round 0. -/
def deafClient : Client where
  status := ⟨⟨100⟩, none⟩
  pendingTransactionInformation := fun _ _ => ⟨⟨0, ""⟩, none⟩
  statusAfterBlock := fun _ _ => ⟨⟨0⟩, some "connection refused"⟩

/-! ## Unfolding the loop -/

theorem stringsJoin_singleton (a sep : String) : stringsJoin [a] sep = a := rfl

theorem deadlineRound_lt (startRound timeout : Nat) :
    deadlineRound startRound timeout < u64 :=
  Nat.mod_lt _ (by decide)

theorem waitLoop_exit (client : Client) (txID : String) (startRound timeout : Nat)
    (s : LoopState) (h : ¬ s.currentRound < deadlineRound startRound timeout) :
    waitLoop client txID startRound timeout s
      = ⟨s.pt, some "Tx not found in round range", s.calls⟩ := by
  rw [waitLoop, if_neg h]

theorem waitLoop_done (client : Client) (txID : String) (startRound timeout : Nat)
    (s : LoopState) (r : Result) (h : s.currentRound < deadlineRound startRound timeout)
    (hb : loopBody client txID s = Step.done r) :
    waitLoop client txID startRound timeout s = r := by
  rw [waitLoop, if_pos h]
  split
  · rename_i r' h'
    rw [hb] at h'
    cases h'
    rfl
  · rename_i s' h'
    rw [hb] at h'
    cases h'

theorem waitLoop_next (client : Client) (txID : String) (startRound timeout : Nat)
    (s s' : LoopState) (h : s.currentRound < deadlineRound startRound timeout)
    (hb : loopBody client txID s = Step.next s') :
    waitLoop client txID startRound timeout s
      = waitLoop client txID startRound timeout s' := by
  rw [waitLoop, if_pos h]
  split
  · rename_i r' h'
    rw [hb] at h'
    cases h'
  · rename_i s'' h'
    rw [hb] at h'
    cases h'
    rfl

/-! ## One iteration -/

theorem loopBody_err (client : Client) (txID : String) (s : LoopState) (e : String)
    (h : (client.pendingTransactionInformation (pendingCount s.calls + 1) txID).err = some e) :
    loopBody client txID s = Step.done
      ⟨(client.pendingTransactionInformation (pendingCount s.calls + 1) txID).response,
        some "error getting pending transaction: ",
        s.calls ++ [Call.pendingTransactionInformation txID]⟩ := by
  simp only [loopBody, h, stringsJoin_singleton]

theorem loopBody_confirmed (client : Client) (txID : String) (s : LoopState)
    (h : (client.pendingTransactionInformation (pendingCount s.calls + 1) txID).err = none)
    (hc : 0 < (client.pendingTransactionInformation
      (pendingCount s.calls + 1) txID).response.confirmedRound) :
    loopBody client txID s = Step.done
      ⟨(client.pendingTransactionInformation (pendingCount s.calls + 1) txID).response,
        none, s.calls ++ [Call.pendingTransactionInformation txID]⟩ := by
  simp only [loopBody, h, gt_iff_lt, hc, if_true]

theorem loopBody_rejected (client : Client) (txID : String) (s : LoopState)
    (h : (client.pendingTransactionInformation (pendingCount s.calls + 1) txID).err = none)
    (hc : (client.pendingTransactionInformation
      (pendingCount s.calls + 1) txID).response.confirmedRound = 0)
    (hp : (client.pendingTransactionInformation
      (pendingCount s.calls + 1) txID).response.poolError ≠ "") :
    loopBody client txID s = Step.done
      ⟨(client.pendingTransactionInformation (pendingCount s.calls + 1) txID).response,
        some "There was a pool error, then the transaction has been rejected",
        s.calls ++ [Call.pendingTransactionInformation txID]⟩ := by
  simp only [loopBody, h, gt_iff_lt, hc, lt_irrefl, if_false, ne_eq, hp, not_false_eq_true,
    if_true]

theorem loopBody_idle (client : Client) (txID : String) (s : LoopState)
    (h : (client.pendingTransactionInformation (pendingCount s.calls + 1) txID).idle) :
    loopBody client txID s = Step.next (idleState client txID s) := by
  obtain ⟨he, hc, hp⟩ := h
  simp only [loopBody, he, gt_iff_lt, hc, lt_irrefl, if_false, ne_eq, hp, not_true_eq_false,
    idleState]

theorem loopBody_next (client : Client) (txID : String) (s s' : LoopState)
    (h : loopBody client txID s = Step.next s') :
    s' = idleState client txID s := by
  unfold loopBody at h
  simp only at h
  split at h
  · cases h
  · split at h
    · cases h
    · split at h
      · cases h
      · cases h; rfl

theorem loopBody_done_calls (client : Client) (txID : String) (s : LoopState) (r : Result)
    (h : loopBody client txID s = Step.done r) :
    r.calls = s.calls ++ [Call.pendingTransactionInformation txID] := by
  unfold loopBody at h
  simp only at h
  split at h
  · cases h; rfl
  · split at h
    · cases h; rfl
    · split at h
      · cases h; rfl
      · cases h

/-! ## Counting calls -/

theorem pendingCount_append (l₁ l₂ : List Call) :
    pendingCount (l₁ ++ l₂) = pendingCount l₁ + pendingCount l₂ := by
  simp [pendingCount]

theorem waitCount_append (l₁ l₂ : List Call) :
    waitCount (l₁ ++ l₂) = waitCount l₁ + waitCount l₂ := by
  simp [waitCount]

theorem statusCount_append (l₁ l₂ : List Call) :
    statusCount (l₁ ++ l₂) = statusCount l₁ + statusCount l₂ := by
  simp [statusCount]

theorem waitRounds_append (l₁ l₂ : List Call) :
    waitRounds (l₁ ++ l₂) = waitRounds l₁ ++ waitRounds l₂ := by
  simp [waitRounds]

theorem pendingCount_idleLog (txID : String) (m : Nat) :
    ∀ r, pendingCount (idleLog txID r m) = m := by
  induction m with
  | zero => intro r; rfl
  | succ m ih =>
    intro r
    have h := ih (r + 1)
    simp only [pendingCount] at h
    simp [idleLog, pendingCount, h]

theorem waitCount_idleLog (txID : String) (m : Nat) :
    ∀ r, waitCount (idleLog txID r m) = m := by
  induction m with
  | zero => intro r; rfl
  | succ m ih =>
    intro r
    have h := ih (r + 1)
    simp only [waitCount] at h
    simp [idleLog, waitCount, h]

theorem statusCount_idleLog (txID : String) (m : Nat) :
    ∀ r, statusCount (idleLog txID r m) = 0 := by
  induction m with
  | zero => intro r; rfl
  | succ m ih =>
    intro r
    have h := ih (r + 1)
    simp only [statusCount] at h
    simp [idleLog, statusCount, h]

theorem idleState_round (client : Client) (txID : String) (s : LoopState)
    (h : s.currentRound + 1 < u64) :
    (idleState client txID s).currentRound = s.currentRound + 1 := by
  simp only [idleState]
  exact Nat.mod_eq_of_lt h

theorem idleState_calls (client : Client) (txID : String) (s : LoopState) :
    (idleState client txID s).calls
      = s.calls ++ [Call.pendingTransactionInformation txID,
          Call.statusAfterBlock s.currentRound] := by
  simp [idleState]

/-! ## Several iterations that go on -/

theorem waitLoop_idle (client : Client) (txID : String) (startRound timeout : Nat) :
    ∀ (m : Nat) (s : LoopState),
      s.currentRound + m ≤ deadlineRound startRound timeout →
      (∀ i, pendingCount s.calls < i → i ≤ pendingCount s.calls + m →
        (client.pendingTransactionInformation i txID).idle) →
      ∃ s', waitLoop client txID startRound timeout s
            = waitLoop client txID startRound timeout s' ∧
          s'.currentRound = s.currentRound + m ∧
          s'.calls = s.calls ++ idleLog txID s.currentRound m ∧
          s'.pt = if m = 0 then s.pt
            else (client.pendingTransactionInformation
              (pendingCount s.calls + m) txID).response := by
  intro m
  induction m with
  | zero =>
    intro s _ _
    exact ⟨s, rfl, rfl, by simp [idleLog], rfl⟩
  | succ m ih =>
    intro s hle hidle
    have hd := deadlineRound_lt startRound timeout
    have hlt : s.currentRound < deadlineRound startRound timeout := by omega
    have hr : (idleState client txID s).currentRound = s.currentRound + 1 :=
      idleState_round client txID s (by omega)
    have hc := idleState_calls client txID s
    have hp : pendingCount (idleState client txID s).calls = pendingCount s.calls + 1 := by
      rw [hc, pendingCount_append]; rfl
    have h1 := waitLoop_next client txID startRound timeout s _ hlt
      (loopBody_idle client txID s (hidle _ (by omega) (by omega)))
    obtain ⟨s', e1, e2, e3, e4⟩ := ih (idleState client txID s) (by omega)
      (fun i hi1 hi2 => hidle i (by omega) (by omega))
    refine ⟨s', h1.trans e1, by omega, ?_, ?_⟩
    · rw [e3, hc, hr]; simp [idleLog]
    · rw [e4, hp]
      by_cases hm : m = 0
      · subst hm; simp [idleState]
      · simp only [hm, if_false, Nat.succ_ne_zero]
        congr 2
        omega

/-! ## Runs of `waitForConfirmation` -/

theorem run_enters_loop (txID : String) (c : Client) (N : Nat)
    (htx : txID ≠ "") (hst : c.status.err = none) :
    waitForConfirmation txID (some c) N
      = waitLoop c txID ((c.status.status.lastRound + 1) % u64) N
          (initState c.status.status zeroResponse [Call.status]) := by
  simp only [waitForConfirmation, htx, Nat.not_lt_zero, or_self, if_false, hst]

theorem run_idle_start (txID : String) (c : Client) (N m : Nat)
    (htx : txID ≠ "") (hst : c.status.err = none)
    (hroom : (c.status.status.lastRound + 1) % u64 + m
      ≤ deadlineRound ((c.status.status.lastRound + 1) % u64) N)
    (hidle : ∀ i, 1 ≤ i → i ≤ m → (c.pendingTransactionInformation i txID).idle) :
    ∃ s', waitForConfirmation txID (some c) N
          = waitLoop c txID ((c.status.status.lastRound + 1) % u64) N s' ∧
        s'.currentRound = (c.status.status.lastRound + 1) % u64 + m ∧
        s'.calls = Call.status :: idleLog txID ((c.status.status.lastRound + 1) % u64) m ∧
        s'.pt = if m = 0 then zeroResponse
          else (c.pendingTransactionInformation m txID).response := by
  have h0 : pendingCount (initState c.status.status zeroResponse [Call.status]).calls = 0 := rfl
  obtain ⟨s', e1, e2, e3, e4⟩ := waitLoop_idle c txID ((c.status.status.lastRound + 1) % u64) N m
    (initState c.status.status zeroResponse [Call.status]) hroom
    (fun i hi1 hi2 => hidle i (by omega) (by omega))
  refine ⟨s', (run_enters_loop txID c N htx hst).trans e1, e2, e3, ?_⟩
  rw [e4, h0, Nat.zero_add]
  rfl

theorem deadline_no_wrap (L N : Nat) (hb : L + 1 + N < u64) :
    (L + 1) % u64 = L + 1 ∧ deadlineRound ((L + 1) % u64) N = L + 1 + N := by
  have h1 : (L + 1) % u64 = L + 1 := Nat.mod_eq_of_lt (by omega)
  refine ⟨h1, ?_⟩
  rw [h1, deadlineRound, Nat.mod_eq_of_lt hb]

theorem pendingCount_run (txID : String) (r m : Nat) (l : List Call) :
    pendingCount (Call.status :: (idleLog txID r m ++ l)) = m + pendingCount l := by
  show pendingCount ([Call.status] ++ (idleLog txID r m ++ l)) = m + pendingCount l
  rw [pendingCount_append, pendingCount_append, pendingCount_idleLog]
  show 0 + (m + pendingCount l) = m + pendingCount l
  omega

theorem waitCount_run (txID : String) (r m : Nat) (l : List Call) :
    waitCount (Call.status :: (idleLog txID r m ++ l)) = m + waitCount l := by
  show waitCount ([Call.status] ++ (idleLog txID r m ++ l)) = m + waitCount l
  rw [waitCount_append, waitCount_append, waitCount_idleLog]
  show 0 + (m + waitCount l) = m + waitCount l
  omega

theorem statusCount_run (txID : String) (r m : Nat) (l : List Call) :
    statusCount (Call.status :: (idleLog txID r m ++ l)) = 1 + statusCount l := by
  show statusCount ([Call.status] ++ (idleLog txID r m ++ l)) = 1 + statusCount l
  rw [statusCount_append, statusCount_append, statusCount_idleLog]
  show 1 + (0 + statusCount l) = 1 + statusCount l
  omega

theorem run_idle_nowrap (txID : String) (c : Client) (N m : Nat)
    (htx : txID ≠ "") (hst : c.status.err = none)
    (hb : c.status.status.lastRound + 1 + N < u64) (hm : m ≤ N)
    (hidle : ∀ i, 1 ≤ i → i ≤ m → (c.pendingTransactionInformation i txID).idle) :
    ∃ s', waitForConfirmation txID (some c) N
          = waitLoop c txID (c.status.status.lastRound + 1) N s' ∧
        s'.currentRound = c.status.status.lastRound + 1 + m ∧
        s'.calls = Call.status :: idleLog txID (c.status.status.lastRound + 1) m ∧
        (s'.pt = if m = 0 then zeroResponse
          else (c.pendingTransactionInformation m txID).response) ∧
        deadlineRound (c.status.status.lastRound + 1) N
          = c.status.status.lastRound + 1 + N ∧
        pendingCount s'.calls = m := by
  obtain ⟨hs, hd⟩ := deadline_no_wrap _ _ hb
  obtain ⟨s', e1, e2, e3, e4⟩ := run_idle_start txID c N m htx hst
    (by rw [hd, hs]; omega) hidle
  rw [hs] at e1 e2 e3 hd
  refine ⟨s', e1, e2, e3, e4, hd, ?_⟩
  have h := pendingCount_run txID (c.status.status.lastRound + 1) m []
  rw [List.append_nil] at h
  rw [e3, h]
  rfl

/-- Claim C1: with a non-empty txID, a non-nil client, `1 ≤ k ≤ N` and
`lastRound + 1 + N < 2^64`, if the status query succeeds, polls `1..k-1`
succeed unconfirmed without pool error and poll `k` succeeds with a positive
confirmed round, then `waitForConfirmation` returns no error and exactly the
snapshot of poll `k`; the calls made are the status query, `k - 1` pairs of a
pending-transaction query and a round-wait, and the `k`-th pending-transaction
query, which is the last call: `k` queries and `k - 1` round-waits. -/
theorem confirmed_on_poll (txID : String) (c : Client) (N k : Nat)
    (htx : txID ≠ "") (hk1 : 1 ≤ k) (hkN : k ≤ N)
    (hb : c.status.status.lastRound + 1 + N < u64)
    (hst : c.status.err = none)
    (hidle : ∀ i, 1 ≤ i → i < k → (c.pendingTransactionInformation i txID).idle)
    (hok : (c.pendingTransactionInformation k txID).err = none)
    (hconf : 0 < (c.pendingTransactionInformation k txID).response.confirmedRound) :
    waitForConfirmation txID (some c) N
        = ⟨(c.pendingTransactionInformation k txID).response, none,
            Call.status :: (idleLog txID (c.status.status.lastRound + 1) (k - 1)
              ++ [Call.pendingTransactionInformation txID])⟩ ∧
      pendingCount (waitForConfirmation txID (some c) N).calls = k ∧
      waitCount (waitForConfirmation txID (some c) N).calls = k - 1 ∧
      statusCount (waitForConfirmation txID (some c) N).calls = 1 := by
  obtain ⟨s', e1, e2, e3, -, hd, hp⟩ := run_idle_nowrap txID c N (k - 1) htx hst hb
    (by omega) (fun i hi1 hi2 => hidle i hi1 (by omega))
  have hk : pendingCount s'.calls + 1 = k := by omega
  have hres : waitForConfirmation txID (some c) N
      = ⟨(c.pendingTransactionInformation k txID).response, none,
          Call.status :: (idleLog txID (c.status.status.lastRound + 1) (k - 1)
            ++ [Call.pendingTransactionInformation txID])⟩ := by
    rw [e1, waitLoop_done c txID _ N s' _ (by rw [hd, e2]; omega)
      (loopBody_confirmed c txID s' (by rw [hk]; exact hok) (by rw [hk]; exact hconf)),
      hk, e3]
    rfl
  refine ⟨hres, ?_, ?_, ?_⟩
  · rw [hres, pendingCount_run]
    show k - 1 + 1 = k
    omega
  · rw [hres, waitCount_run]
    rfl
  · rw [hres, statusCount_run]
    rfl

/-- Scenario of the specification for C1: `timeoutRounds = 4`, `lastRound = 100`,
confirmed in round 104 on the fourth poll: no error, snapshot with confirmed
round 104, four pending-transaction queries and three round-waits, for rounds
101, 102 and 103. -/
theorem confirmed_on_poll_scenario :
    waitForConfirmation "TX" (some scenarioClient) 4
        = ⟨⟨104, ""⟩, none,
            [Call.status,
             Call.pendingTransactionInformation "TX", Call.statusAfterBlock 101,
             Call.pendingTransactionInformation "TX", Call.statusAfterBlock 102,
             Call.pendingTransactionInformation "TX", Call.statusAfterBlock 103,
             Call.pendingTransactionInformation "TX"]⟩ ∧
      pendingCount (waitForConfirmation "TX" (some scenarioClient) 4).calls = 4 ∧
      waitCount (waitForConfirmation "TX" (some scenarioClient) 4).calls = 3 ∧
      statusCount (waitForConfirmation "TX" (some scenarioClient) 4).calls = 1 :=
  confirmed_on_poll "TX" scenarioClient 4 4 (by decide) (by decide) (by decide) (by decide) rfl
    (fun i _ h4 => by
      have hi : i ≠ 4 := by omega
      simp [scenarioClient, PendingReply.idle, hi])
    rfl (by decide)

/-- Claim C2: with a non-empty txID, a non-nil client, `1 ≤ k ≤ N` and
`lastRound + 1 + N < 2^64`, if the status query succeeds, polls `1..k-1`
succeed unconfirmed without pool error and poll `k` succeeds unconfirmed with
a non-empty pool error, then `waitForConfirmation` returns the pool-error
error, which is not the round-range error, with the snapshot of poll `k`,
whose pool error is that text; the calls made are the status query, `k - 1`
pairs of a query and a round-wait, and last the `k`-th query, so `k ≤ N`
queries and `k - 1` round-waits. -/
theorem rejected_on_poll (txID : String) (c : Client) (N k : Nat)
    (htx : txID ≠ "") (hk1 : 1 ≤ k) (hkN : k ≤ N)
    (hb : c.status.status.lastRound + 1 + N < u64)
    (hst : c.status.err = none)
    (hidle : ∀ i, 1 ≤ i → i < k → (c.pendingTransactionInformation i txID).idle)
    (hok : (c.pendingTransactionInformation k txID).err = none)
    (hconf : (c.pendingTransactionInformation k txID).response.confirmedRound = 0)
    (hpool : (c.pendingTransactionInformation k txID).response.poolError ≠ "") :
    waitForConfirmation txID (some c) N
        = ⟨(c.pendingTransactionInformation k txID).response,
            some "There was a pool error, then the transaction has been rejected",
            Call.status :: (idleLog txID (c.status.status.lastRound + 1) (k - 1)
              ++ [Call.pendingTransactionInformation txID])⟩ ∧
      (waitForConfirmation txID (some c) N).err ≠ some "Tx not found in round range" ∧
      (waitForConfirmation txID (some c) N).pt.poolError
        = (c.pendingTransactionInformation k txID).response.poolError ∧
      pendingCount (waitForConfirmation txID (some c) N).calls = k ∧
      pendingCount (waitForConfirmation txID (some c) N).calls ≤ N ∧
      waitCount (waitForConfirmation txID (some c) N).calls = k - 1 ∧
      statusCount (waitForConfirmation txID (some c) N).calls = 1 := by
  obtain ⟨s', e1, e2, e3, -, hd, hp⟩ := run_idle_nowrap txID c N (k - 1) htx hst hb
    (by omega) (fun i hi1 hi2 => hidle i hi1 (by omega))
  have hk : pendingCount s'.calls + 1 = k := by omega
  have hres : waitForConfirmation txID (some c) N
      = ⟨(c.pendingTransactionInformation k txID).response,
          some "There was a pool error, then the transaction has been rejected",
          Call.status :: (idleLog txID (c.status.status.lastRound + 1) (k - 1)
            ++ [Call.pendingTransactionInformation txID])⟩ := by
    rw [e1, waitLoop_done c txID _ N s' _ (by rw [hd, e2]; omega)
      (loopBody_rejected c txID s' (by rw [hk]; exact hok) (by rw [hk]; exact hconf)
        (by rw [hk]; exact hpool)),
      hk, e3]
    rfl
  have hpc : pendingCount (waitForConfirmation txID (some c) N).calls = k := by
    rw [hres, pendingCount_run]
    show k - 1 + 1 = k
    omega
  refine ⟨hres, ?_, ?_, hpc, by omega, ?_, ?_⟩
  · rw [hres]
    show (some "There was a pool error, then the transaction has been rejected" : Option String)
      ≠ some "Tx not found in round range"
    decide
  · rw [hres]
  · rw [hres, waitCount_run]
    rfl
  · rw [hres, statusCount_run]
    rfl

/-- Instance of C2: budget 3, node at round 100, pool error "overspend" on the
second poll: the pool-error error after two queries and one round-wait. -/
theorem rejected_on_poll_example :
    waitForConfirmation "TX" (some rejectingClient) 3
        = ⟨⟨0, "overspend"⟩,
            some "There was a pool error, then the transaction has been rejected",
            [Call.status,
             Call.pendingTransactionInformation "TX", Call.statusAfterBlock 101,
             Call.pendingTransactionInformation "TX"]⟩ ∧
      (waitForConfirmation "TX" (some rejectingClient) 3).err
        ≠ some "Tx not found in round range" ∧
      (waitForConfirmation "TX" (some rejectingClient) 3).pt.poolError = "overspend" ∧
      pendingCount (waitForConfirmation "TX" (some rejectingClient) 3).calls = 2 ∧
      pendingCount (waitForConfirmation "TX" (some rejectingClient) 3).calls ≤ 3 ∧
      waitCount (waitForConfirmation "TX" (some rejectingClient) 3).calls = 1 ∧
      statusCount (waitForConfirmation "TX" (some rejectingClient) 3).calls = 1 :=
  rejected_on_poll "TX" rejectingClient 3 2 (by decide) (by decide) (by decide) (by decide) rfl
    (fun i _ h2 => by
      have hi : i ≠ 2 := by omega
      simp [rejectingClient, PendingReply.idle, hi])
    rfl rfl (by decide)

/-- Run in which no poll resolves the transaction, the deadline not wrapping:
the round-range error after `N` pairs of a query and a round-wait. -/
theorem run_unresolved (txID : String) (c : Client) (N : Nat)
    (htx : txID ≠ "")
    (hb : c.status.status.lastRound + 1 + N < u64)
    (hst : c.status.err = none)
    (hidle : ∀ i, 1 ≤ i → i ≤ N → (c.pendingTransactionInformation i txID).idle) :
    waitForConfirmation txID (some c) N
      = ⟨if N = 0 then zeroResponse else (c.pendingTransactionInformation N txID).response,
          some "Tx not found in round range",
          Call.status :: idleLog txID (c.status.status.lastRound + 1) N⟩ := by
  obtain ⟨s', e1, e2, e3, e4, hd, -⟩ := run_idle_nowrap txID c N N htx hst hb
    (Nat.le_refl N) hidle
  rw [e1, waitLoop_exit c txID _ N s' (by rw [hd, e2]; omega), e3, e4]

/-- Claim C3: with a non-empty txID, a non-nil client and
`lastRound + 1 + N < 2^64`, if the status query succeeds and every poll
succeeds unconfirmed without pool error, then `waitForConfirmation` makes the
status query and then exactly `N` pairs of a pending-transaction query and a
round-wait, and returns the error "Tx not found in round range", which is
neither success nor the pool-error error. -/
theorem timeout_boundary (txID : String) (c : Client) (N : Nat)
    (htx : txID ≠ "")
    (hb : c.status.status.lastRound + 1 + N < u64)
    (hst : c.status.err = none)
    (hidle : ∀ i, 1 ≤ i → i ≤ N → (c.pendingTransactionInformation i txID).idle) :
    (waitForConfirmation txID (some c) N).err = some "Tx not found in round range" ∧
      (waitForConfirmation txID (some c) N).calls
        = Call.status :: idleLog txID (c.status.status.lastRound + 1) N ∧
      pendingCount (waitForConfirmation txID (some c) N).calls = N ∧
      waitCount (waitForConfirmation txID (some c) N).calls = N ∧
      statusCount (waitForConfirmation txID (some c) N).calls = 1 ∧
      (waitForConfirmation txID (some c) N).err ≠ none ∧
      (waitForConfirmation txID (some c) N).err
        ≠ some "There was a pool error, then the transaction has been rejected" := by
  have hres := run_unresolved txID c N htx hb hst hidle
  have hp := pendingCount_run txID (c.status.status.lastRound + 1) N []
  have hw := waitCount_run txID (c.status.status.lastRound + 1) N []
  have hs := statusCount_run txID (c.status.status.lastRound + 1) N []
  rw [List.append_nil] at hp hw hs
  have h1 : (some "Tx not found in round range" : Option String) ≠ none := by decide
  have h2 : (some "Tx not found in round range" : Option String)
      ≠ some "There was a pool error, then the transaction has been rejected" := by decide
  rw [hres]
  exact ⟨rfl, rfl, hp, hw, hs, h1, h2⟩

/-- Instance of C3: budget 3, node at round 100, never resolved: three queries
and three round-waits, for rounds 101, 102 and 103, then the round-range
error. -/
theorem timeout_boundary_example :
    (waitForConfirmation "TX" (some silentClient) 3).err
        = some "Tx not found in round range" ∧
      (waitForConfirmation "TX" (some silentClient) 3).calls
        = [Call.status,
           Call.pendingTransactionInformation "TX", Call.statusAfterBlock 101,
           Call.pendingTransactionInformation "TX", Call.statusAfterBlock 102,
           Call.pendingTransactionInformation "TX", Call.statusAfterBlock 103] ∧
      pendingCount (waitForConfirmation "TX" (some silentClient) 3).calls = 3 ∧
      waitCount (waitForConfirmation "TX" (some silentClient) 3).calls = 3 ∧
      statusCount (waitForConfirmation "TX" (some silentClient) 3).calls = 1 ∧
      (waitForConfirmation "TX" (some silentClient) 3).err ≠ none ∧
      (waitForConfirmation "TX" (some silentClient) 3).err
        ≠ some "There was a pool error, then the transaction has been rejected" :=
  timeout_boundary "TX" silentClient 3 (by decide) (by decide) rfl
    (fun _ _ _ => ⟨rfl, rfl, rfl⟩)

/-- Claim C5: for the empty txID, every client (nil or not) and every
`timeoutRounds`, `waitForConfirmation` returns the error
"Bad arguments for waitForConfirmation" with the zero-valued snapshot and makes
no call on the client. -/
theorem empty_txID_rejected (client : Option Client) (N : Nat) :
    waitForConfirmation "" client N
      = ⟨⟨0, ""⟩, some "Bad arguments for waitForConfirmation", []⟩ := by
  cases client with
  | none => rfl
  | some c => simp [waitForConfirmation, zeroResponse]

/-! ## Bounds on the number of calls -/

theorem counts_length (l : List Call) :
    statusCount l + pendingCount l + waitCount l = l.length := by
  induction l with
  | nil => rfl
  | cons a l ih =>
    have h1 := statusCount_append [a] l
    have h2 := pendingCount_append [a] l
    have h3 := waitCount_append [a] l
    simp only [List.singleton_append] at h1 h2 h3
    rw [h1, h2, h3, List.length_cons]
    cases a <;> simp [statusCount, pendingCount, waitCount] at * <;> omega

theorem waitLoop_counts (client : Client) (txID : String) (startRound timeout : Nat) :
    ∀ (n : Nat) (s : LoopState),
      deadlineRound startRound timeout - s.currentRound ≤ n →
      pendingCount s.calls ≤ pendingCount (waitLoop client txID startRound timeout s).calls ∧
      pendingCount (waitLoop client txID startRound timeout s).calls
        ≤ pendingCount s.calls + n ∧
      waitCount (waitLoop client txID startRound timeout s).calls ≤ waitCount s.calls + n ∧
      statusCount (waitLoop client txID startRound timeout s).calls = statusCount s.calls := by
  intro n
  induction n with
  | zero =>
    intro s hn
    rw [waitLoop_exit client txID startRound timeout s (by omega)]
    exact ⟨Nat.le_refl _, Nat.le_refl _, Nat.le_refl _, rfl⟩
  | succ n ih =>
    intro s hn
    by_cases hlt : s.currentRound < deadlineRound startRound timeout
    · cases hb : loopBody client txID s with
      | done r =>
        rw [waitLoop_done client txID startRound timeout s r hlt hb,
          loopBody_done_calls client txID s r hb, pendingCount_append, waitCount_append,
          statusCount_append]
        have h1 : pendingCount [Call.pendingTransactionInformation txID] = 1 := rfl
        have h2 : waitCount [Call.pendingTransactionInformation txID] = 0 := rfl
        have h3 : statusCount [Call.pendingTransactionInformation txID] = 0 := rfl
        rw [h1, h2, h3]
        omega
      | next s' =>
        have hs := loopBody_next client txID s s' hb
        have hd := deadlineRound_lt startRound timeout
        have hr : s'.currentRound = s.currentRound + 1 := by
          rw [hs]; exact idleState_round client txID s (by omega)
        have hc : s'.calls = s.calls ++ [Call.pendingTransactionInformation txID,
            Call.statusAfterBlock s.currentRound] := by
          rw [hs]; exact idleState_calls client txID s
        rw [waitLoop_next client txID startRound timeout s s' hlt hb]
        obtain ⟨i0, i1, i2, i3⟩ := ih s' (by omega)
        rw [hc, pendingCount_append, waitCount_append, statusCount_append] at *
        have h1 : pendingCount [Call.pendingTransactionInformation txID,
            Call.statusAfterBlock s.currentRound] = 1 := rfl
        have h2 : waitCount [Call.pendingTransactionInformation txID,
            Call.statusAfterBlock s.currentRound] = 1 := rfl
        have h3 : statusCount [Call.pendingTransactionInformation txID,
            Call.statusAfterBlock s.currentRound] = 0 := rfl
        rw [h1] at i0 i1
        rw [h2] at i2
        rw [h3] at i3
        omega
    · rw [waitLoop_exit client txID startRound timeout s hlt]
      exact ⟨Nat.le_refl _, Nat.le_add_right _ _, Nat.le_add_right _ _, rfl⟩

theorem deadline_sub_le (startRound timeout : Nat) :
    deadlineRound startRound timeout - startRound ≤ timeout := by
  have h : deadlineRound startRound timeout ≤ startRound + timeout := Nat.mod_le _ _
  omega

/-! ## Transport failures -/

/-- Claim C4 fails as worded: with `lastRound = 100` and
`timeoutRounds = 2^64 - 1`, a succeeding status query and a client whose first
pending-transaction query would fail (`k = 1 ≤ timeoutRounds`), the deadline
wraps to 100, below the start round 101, so `waitForConfirmation` makes no
pending-transaction query and returns the round-range error, not the
pending-transaction-query error. -/
theorem transport_failure_counterexample :
    brokenClient.status.err = none ∧
      (brokenClient.pendingTransactionInformation 1 "TX").err = some "connection reset" ∧
      1 ≤ 18446744073709551615 ∧
      waitForConfirmation "TX" (some brokenClient) 18446744073709551615
        = ⟨⟨0, ""⟩, some "Tx not found in round range", [Call.status]⟩ ∧
      pendingCount (waitForConfirmation "TX" (some brokenClient) 18446744073709551615).calls
        ≠ 1 ∧
      (waitForConfirmation "TX" (some brokenClient) 18446744073709551615).err
        ≠ some "error getting pending transaction: " := by
  have h : waitForConfirmation "TX" (some brokenClient) 18446744073709551615
      = ⟨⟨0, ""⟩, some "Tx not found in round range", [Call.status]⟩ := by
    rw [run_enters_loop "TX" brokenClient _ (by decide) rfl]
    exact waitLoop_exit _ _ _ _ _ (by decide)
  refine ⟨rfl, rfl, by decide, h, ?_, ?_⟩
  · rw [h]; decide
  · rw [h]; decide

/-- Claim C4 as amended: with a non-empty txID and a non-nil client, (a) if the
status query fails, `waitForConfirmation` returns the status-query error with
the zero snapshot, that query being its only call; (b) if the status query
succeeds, `lastRound + 1 + N < 2^64`, `1 ≤ k ≤ N`, polls `1..k-1` succeed
unconfirmed without pool error and the pending-transaction query of poll `k`
fails, it returns the pending-transaction-query error (not success, the
pool-error error or the round-range error) with what that query returned as
snapshot; the calls made are the status query, `k - 1` pairs of a query and a
round-wait, and last the `k`-th query: `k` queries and `k - 1` round-waits. -/
theorem transport_failure (txID : String) (c : Client) (N : Nat) (htx : txID ≠ "") :
    (∀ e, c.status.err = some e →
      waitForConfirmation txID (some c) N
        = ⟨zeroResponse, some "error getting algod status: ", [Call.status]⟩) ∧
    (∀ k e, 1 ≤ k → k ≤ N → c.status.status.lastRound + 1 + N < u64 →
      c.status.err = none →
      (∀ i, 1 ≤ i → i < k → (c.pendingTransactionInformation i txID).idle) →
      (c.pendingTransactionInformation k txID).err = some e →
      waitForConfirmation txID (some c) N
          = ⟨(c.pendingTransactionInformation k txID).response,
              some "error getting pending transaction: ",
              Call.status :: (idleLog txID (c.status.status.lastRound + 1) (k - 1)
                ++ [Call.pendingTransactionInformation txID])⟩ ∧
        pendingCount (waitForConfirmation txID (some c) N).calls = k ∧
        waitCount (waitForConfirmation txID (some c) N).calls = k - 1 ∧
        statusCount (waitForConfirmation txID (some c) N).calls = 1 ∧
        (waitForConfirmation txID (some c) N).err ≠ none ∧
        (waitForConfirmation txID (some c) N).err
          ≠ some "There was a pool error, then the transaction has been rejected" ∧
        (waitForConfirmation txID (some c) N).err ≠ some "Tx not found in round range") := by
  constructor
  · intro e he
    simp only [waitForConfirmation, htx, Nat.not_lt_zero, or_self, if_false, he,
      stringsJoin_singleton]
  · intro k e hk1 hkN hb hst hidle herr
    obtain ⟨s', e1, e2, e3, -, hd, hp⟩ := run_idle_nowrap txID c N (k - 1) htx hst hb
      (by omega) (fun i hi1 hi2 => hidle i hi1 (by omega))
    have hk : pendingCount s'.calls + 1 = k := by omega
    have hres : waitForConfirmation txID (some c) N
        = ⟨(c.pendingTransactionInformation k txID).response,
            some "error getting pending transaction: ",
            Call.status :: (idleLog txID (c.status.status.lastRound + 1) (k - 1)
              ++ [Call.pendingTransactionInformation txID])⟩ := by
      rw [e1, waitLoop_done c txID _ N s' _ (by rw [hd, e2]; omega)
        (loopBody_err c txID s' e (by rw [hk]; exact herr)), hk, e3]
      rfl
    have h1 : (some "error getting pending transaction: " : Option String) ≠ none := by
      decide
    have h2 : (some "error getting pending transaction: " : Option String)
        ≠ some "There was a pool error, then the transaction has been rejected" := by decide
    have h3 : (some "error getting pending transaction: " : Option String)
        ≠ some "Tx not found in round range" := by decide
    refine ⟨hres, ?_, ?_, ?_, ?_, ?_, ?_⟩
    · rw [hres, pendingCount_run]
      show k - 1 + 1 = k
      omega
    · rw [hres, waitCount_run]
      rfl
    · rw [hres, statusCount_run]
      rfl
    · rw [hres]; exact h1
    · rw [hres]; exact h2
    · rw [hres]; exact h3

/-- Instances of C4 as amended: a failing status query gives the status-query
error after that one call; with budget 2 and the node at round 100, a failing
second (and last allowed) pending-transaction query gives the
pending-transaction-query error after two queries and one round-wait. -/
theorem transport_failure_example :
    waitForConfirmation "TX" (some downClient) 2
        = ⟨⟨0, ""⟩, some "error getting algod status: ", [Call.status]⟩ ∧
      waitForConfirmation "TX" (some flakyClient) 2
        = ⟨⟨0, ""⟩, some "error getting pending transaction: ",
            [Call.status,
             Call.pendingTransactionInformation "TX", Call.statusAfterBlock 101,
             Call.pendingTransactionInformation "TX"]⟩ ∧
      pendingCount (waitForConfirmation "TX" (some flakyClient) 2).calls = 2 ∧
      waitCount (waitForConfirmation "TX" (some flakyClient) 2).calls = 1 ∧
      statusCount (waitForConfirmation "TX" (some flakyClient) 2).calls = 1 ∧
      (waitForConfirmation "TX" (some flakyClient) 2).err ≠ none ∧
      (waitForConfirmation "TX" (some flakyClient) 2).err
        ≠ some "There was a pool error, then the transaction has been rejected" ∧
      (waitForConfirmation "TX" (some flakyClient) 2).err
        ≠ some "Tx not found in round range" :=
  ⟨(transport_failure "TX" downClient 2 (by decide)).1 "connection refused" rfl,
    (transport_failure "TX" flakyClient 2 (by decide)).2 2 "connection reset" (by decide)
      (by decide) (by decide) rfl
      (fun i _ h2 => by
        have hi : i ≠ 2 := by omega
        simp [flakyClient, PendingReply.idle, hi])
      rfl⟩

/-! ## Zero budget -/

theorem waitLoop_zero (c : Client) (txID : String) (startRound : Nat) (s : LoopState)
    (hs : s.currentRound = startRound) :
    waitLoop c txID startRound 0 s
      = ⟨s.pt, some "Tx not found in round range", s.calls⟩ := by
  have h : deadlineRound startRound 0 ≤ startRound := Nat.mod_le _ _
  exact waitLoop_exit c txID startRound 0 s (by omega)

/-- Claim C6 fails: with `timeoutRounds = 0`, a succeeding status query and a
client that would report the transaction confirmed on the first poll,
`waitForConfirmation` makes no pending-transaction query and returns the
round-range error with the zero snapshot instead of success. -/
theorem zero_budget_counterexample :
    readyClient.status.err = none ∧
      0 < (readyClient.pendingTransactionInformation 1 "TX").response.confirmedRound ∧
      waitForConfirmation "TX" (some readyClient) 0
        = ⟨⟨0, ""⟩, some "Tx not found in round range", [Call.status]⟩ ∧
      pendingCount (waitForConfirmation "TX" (some readyClient) 0).calls ≠ 1 ∧
      (waitForConfirmation "TX" (some readyClient) 0).err ≠ none := by
  have h : waitForConfirmation "TX" (some readyClient) 0
      = ⟨⟨0, ""⟩, some "Tx not found in round range", [Call.status]⟩ := by
    rw [run_enters_loop "TX" readyClient 0 (by decide) rfl]
    exact waitLoop_zero _ _ _ _ rfl
  refine ⟨rfl, by decide, h, ?_, ?_⟩
  · rw [h]; decide
  · rw [h]; decide

/-- Claim C6 as amended: with a non-empty txID, a non-nil client and
`timeoutRounds = 0`, when the status query succeeds `waitForConfirmation`
makes no pending-transaction query and no round-wait, and returns the error
"Tx not found in round range" with the zero-valued snapshot, whatever a poll
would have shown. -/
theorem zero_budget (txID : String) (c : Client)
    (htx : txID ≠ "") (hst : c.status.err = none) :
    waitForConfirmation txID (some c) 0
        = ⟨⟨0, ""⟩, some "Tx not found in round range", [Call.status]⟩ ∧
      pendingCount (waitForConfirmation txID (some c) 0).calls = 0 ∧
      waitCount (waitForConfirmation txID (some c) 0).calls = 0 := by
  have h : waitForConfirmation txID (some c) 0
      = ⟨⟨0, ""⟩, some "Tx not found in round range", [Call.status]⟩ := by
    rw [run_enters_loop txID c 0 htx hst]
    exact waitLoop_zero _ _ _ _ rfl
  rw [h]
  exact ⟨rfl, rfl, rfl⟩

/-- Instance of C6 as amended, for a client that never resolves. -/
theorem zero_budget_example :
    waitForConfirmation "TX" (some silentClient) 0
        = ⟨⟨0, ""⟩, some "Tx not found in round range", [Call.status]⟩ ∧
      pendingCount (waitForConfirmation "TX" (some silentClient) 0).calls = 0 ∧
      waitCount (waitForConfirmation "TX" (some silentClient) 0).calls = 0 :=
  zero_budget "TX" silentClient (by decide) rfl

/-! ## Number of round trips -/

theorem empty_txID_calls (c : Client) (N : Nat) :
    (waitForConfirmation "" (some c) N).calls = [] := by
  simp [waitForConfirmation]


/-- Claim C7 fails: with `timeoutRounds = 2` and a client that never resolves,
`waitForConfirmation` makes one status query, two pending-transaction queries
and two round-waits: five calls, more than `2 + 2`. -/
theorem round_trip_counterexample :
    statusCount (waitForConfirmation "TX" (some silentClient) 2).calls
        + pendingCount (waitForConfirmation "TX" (some silentClient) 2).calls
        + waitCount (waitForConfirmation "TX" (some silentClient) 2).calls = 5 ∧
      ¬ (statusCount (waitForConfirmation "TX" (some silentClient) 2).calls
        + pendingCount (waitForConfirmation "TX" (some silentClient) 2).calls
        + waitCount (waitForConfirmation "TX" (some silentClient) 2).calls ≤ 2 + 2) := by
  have h := run_unresolved "TX" silentClient 2 (by decide) (by decide) rfl
    (fun _ _ _ => ⟨rfl, rfl, rfl⟩)
  rw [h]
  decide

/-- Claim C7 as amended: for every txID, every client (nil or not), every
`timeoutRounds = N` and every behaviour of the client, one call of
`waitForConfirmation` makes at most one status query, at most `N`
pending-transaction queries and at most `N` round-waits, and nothing else:
at most `2 * N + 1` calls in all. -/
theorem round_trip_bound (txID : String) (client : Option Client) (N : Nat) :
    statusCount (waitForConfirmation txID client N).calls
        + pendingCount (waitForConfirmation txID client N).calls
        + waitCount (waitForConfirmation txID client N).calls
        = (waitForConfirmation txID client N).calls.length ∧
      statusCount (waitForConfirmation txID client N).calls ≤ 1 ∧
      pendingCount (waitForConfirmation txID client N).calls ≤ N ∧
      waitCount (waitForConfirmation txID client N).calls ≤ N ∧
      (waitForConfirmation txID client N).calls.length ≤ 2 * N + 1 := by
  have hlen := counts_length (waitForConfirmation txID client N).calls
  have key : statusCount (waitForConfirmation txID client N).calls ≤ 1 ∧
      pendingCount (waitForConfirmation txID client N).calls ≤ N ∧
      waitCount (waitForConfirmation txID client N).calls ≤ N := by
    cases client with
    | none => exact ⟨Nat.zero_le _, Nat.zero_le _, Nat.zero_le _⟩
    | some c =>
      by_cases htx : txID = ""
      · subst htx
        rw [empty_txID_calls]
        exact ⟨Nat.zero_le _, Nat.zero_le _, Nat.zero_le _⟩
      · cases hst : c.status.err with
        | some e =>
          have h : waitForConfirmation txID (some c) N
              = ⟨zeroResponse, some "error getting algod status: ", [Call.status]⟩ := by
            simp only [waitForConfirmation, htx, Nat.not_lt_zero, or_self, if_false, hst,
              stringsJoin_singleton]
          rw [h]
          exact ⟨Nat.le_refl _, Nat.zero_le _, Nat.zero_le _⟩
        | none =>
          have hcnt := waitLoop_counts c txID ((c.status.status.lastRound + 1) % u64) N _
            (initState c.status.status zeroResponse [Call.status]) (Nat.le_refl _)
          rw [← run_enters_loop txID c N htx hst] at hcnt
          have h0 : pendingCount
              (initState c.status.status zeroResponse [Call.status]).calls = 0 := rfl
          have h1 : waitCount
              (initState c.status.status zeroResponse [Call.status]).calls = 0 := rfl
          have h2 : statusCount
              (initState c.status.status zeroResponse [Call.status]).calls = 1 := rfl
          have hi : (initState c.status.status zeroResponse [Call.status]).currentRound
              = (c.status.status.lastRound + 1) % u64 := rfl
          rw [h0, h1, h2, hi] at hcnt
          have hsub := deadline_sub_le ((c.status.status.lastRound + 1) % u64) N
          omega
  omega

/-! ## The cause of a transport error -/

/-- Claim C8 fails on the code: when the status query fails with
"connection refused", or the second pending-transaction query with
"connection reset", the error returned is the fixed text alone; it is not that
text followed by the message of the underlying error, and the message of the
underlying error does not occur in it. -/
theorem transport_error_cause_dropped :
    (waitForConfirmation "TX" (some downClient) 3).err
        = some "error getting algod status: " ∧
      (waitForConfirmation "TX" (some downClient) 3).err
        ≠ some ("error getting algod status: " ++ "connection refused") ∧
      ¬ ("connection refused".data <:+: "error getting algod status: ".data) ∧
      (waitForConfirmation "TX" (some flakyClient) 3).err
        = some "error getting pending transaction: " ∧
      (waitForConfirmation "TX" (some flakyClient) 3).err
        ≠ some ("error getting pending transaction: " ++ "connection reset") ∧
      ¬ ("connection reset".data <:+: "error getting pending transaction: ".data) := by
  have h1 : waitForConfirmation "TX" (some downClient) 3
      = ⟨zeroResponse, some "error getting algod status: ", [Call.status]⟩ := by
    simp [waitForConfirmation, downClient, stringsJoin_singleton]
  have h2 : (waitForConfirmation "TX" (some flakyClient) 3).err
      = some "error getting pending transaction: " := by
    obtain ⟨s', e1, e2, e3, -, hd, hp⟩ := run_idle_nowrap "TX" flakyClient 3 1 (by decide) rfl
      (by decide) (by decide)
      (fun i h1 h2 => by
        have hi : i ≠ 2 := by omega
        simp [flakyClient, PendingReply.idle, hi])
    rw [e1, waitLoop_done flakyClient "TX" _ 3 s' _ (by rw [hd, e2]; decide)
      (loopBody_err flakyClient "TX" s' "connection reset" (by rw [hp]; rfl))]
  rw [h1, h2]
  refine ⟨rfl, by decide, by decide, rfl, by decide, by decide⟩

/-! ## Round-wait replies -/

theorem loopBody_congr (c₁ c₂ : Client) (txID : String) (s₁ s₂ : LoopState)
    (hp : ∀ i, c₁.pendingTransactionInformation i txID
      = c₂.pendingTransactionInformation i txID)
    (hpt : s₁.currentRound = s₂.currentRound) (hcalls : s₁.calls = s₂.calls) :
    (∃ r, loopBody c₁ txID s₁ = Step.done r ∧ loopBody c₂ txID s₂ = Step.done r) ∨
    (∃ t₁ t₂, loopBody c₁ txID s₁ = Step.next t₁ ∧ loopBody c₂ txID s₂ = Step.next t₂ ∧
      t₁.pt = t₂.pt ∧ t₁.currentRound = t₂.currentRound ∧ t₁.calls = t₂.calls ∧
      t₁.currentRound = (s₁.currentRound + 1) % u64) := by
  unfold loopBody
  simp only [hp, hpt, hcalls]
  split
  · exact Or.inl ⟨_, rfl, rfl⟩
  · split
    · exact Or.inl ⟨_, rfl, rfl⟩
    · split
      · exact Or.inl ⟨_, rfl, rfl⟩
      · exact Or.inr ⟨_, _, rfl, rfl, rfl, rfl, rfl, rfl⟩

theorem waitLoop_congr (c₁ c₂ : Client) (txID : String) (startRound timeout : Nat)
    (hp : ∀ i, c₁.pendingTransactionInformation i txID
      = c₂.pendingTransactionInformation i txID) :
    ∀ (n : Nat) (s₁ s₂ : LoopState),
      deadlineRound startRound timeout - s₁.currentRound ≤ n →
      s₁.pt = s₂.pt → s₁.currentRound = s₂.currentRound → s₁.calls = s₂.calls →
      waitLoop c₁ txID startRound timeout s₁ = waitLoop c₂ txID startRound timeout s₂ := by
  intro n
  induction n with
  | zero =>
    intro s₁ s₂ hn hpt hr hc
    rw [waitLoop_exit c₁ txID startRound timeout s₁ (by omega),
      waitLoop_exit c₂ txID startRound timeout s₂ (by omega), hpt, hc]
  | succ n ih =>
    intro s₁ s₂ hn hpt hr hc
    by_cases hlt : s₁.currentRound < deadlineRound startRound timeout
    · have hlt2 : s₂.currentRound < deadlineRound startRound timeout := by omega
      have hd := deadlineRound_lt startRound timeout
      rcases loopBody_congr c₁ c₂ txID s₁ s₂ hp hr hc with
        ⟨r, h1, h2⟩ | ⟨t₁, t₂, h1, h2, g1, g2, g3, g4⟩
      · rw [waitLoop_done c₁ txID startRound timeout s₁ r hlt h1,
          waitLoop_done c₂ txID startRound timeout s₂ r hlt2 h2]
      · rw [waitLoop_next c₁ txID startRound timeout s₁ t₁ hlt h1,
          waitLoop_next c₂ txID startRound timeout s₂ t₂ hlt2 h2]
        have g5 : t₁.currentRound = s₁.currentRound + 1 := by
          rw [g4]; exact Nat.mod_eq_of_lt (by omega)
        exact ih t₁ t₂ (by omega) g1 g2 g3
    · rw [waitLoop_exit c₁ txID startRound timeout s₁ hlt,
        waitLoop_exit c₂ txID startRound timeout s₂ (by omega), hpt, hc]

/-- Claim C9: for every txID and `timeoutRounds`, two clients that give the
same status reply and the same replies to the pending-transaction queries, and
differ arbitrarily in the replies of their round-waits, make
`waitForConfirmation` return the same snapshot and the same error after the
same calls with the same arguments. -/
theorem round_wait_replies_ignored (txID : String) (c₁ c₂ : Client) (N : Nat)
    (hs : c₁.status = c₂.status)
    (hp : ∀ i, c₁.pendingTransactionInformation i txID
      = c₂.pendingTransactionInformation i txID) :
    waitForConfirmation txID (some c₁) N = waitForConfirmation txID (some c₂) N := by
  by_cases htx : txID = ""
  · simp [waitForConfirmation, htx]
  · cases hst : c₂.status.err with
    | some e =>
      simp only [waitForConfirmation, htx, Nat.not_lt_zero, or_self, if_false, hs, hst]
    | none =>
      rw [run_enters_loop txID c₁ N htx (by rw [hs]; exact hst),
        run_enters_loop txID c₂ N htx hst, hs]
      exact waitLoop_congr c₁ c₂ txID _ N hp _ _ _ (Nat.le_refl _) rfl rfl rfl

/-- Instance of C9: with budget 3 and no poll resolving, a client whose
round-waits all fail gives the same result and calls as one whose round-waits
succeed: the round-range error after three queries and three round-waits. -/
theorem round_wait_replies_ignored_example :
    waitForConfirmation "TX" (some deafClient) 3
      = waitForConfirmation "TX" (some silentClient) 3 :=
  round_wait_replies_ignored "TX" deafClient silentClient 3 rfl (fun _ => rfl)

/-! ## The round counter -/

theorem roundInv_init (status : NodeStatus) :
    RoundInv ((status.lastRound + 1) % u64) (initState status zeroResponse [Call.status]) :=
  ⟨rfl, rfl⟩

theorem roundInv_step (client : Client) (txID : String) (startRound timeout : Nat)
    (s s' : LoopState) (hinv : RoundInv startRound s)
    (hlt : s.currentRound < deadlineRound startRound timeout)
    (hb : loopBody client txID s = Step.next s') :
    RoundInv startRound s' ∧ s'.currentRound = s.currentRound + 1 := by
  have hd := deadlineRound_lt startRound timeout
  have hs := loopBody_next client txID s s' hb
  have hr : s'.currentRound = s.currentRound + 1 := by
    rw [hs]; exact idleState_round client txID s (by omega)
  have hc : s'.calls = s.calls ++ [Call.pendingTransactionInformation txID,
      Call.statusAfterBlock s.currentRound] := by
    rw [hs]; exact idleState_calls client txID s
  have hw : waitCount s'.calls = waitCount s.calls + 1 := by
    rw [hc, waitCount_append]; rfl
  refine ⟨⟨by rw [hr, hw, hinv.1]; omega, ?_⟩, hr⟩
  rw [hw, hc, waitRounds_append, hinv.2, List.range'_concat, Nat.one_mul, ← hinv.1]
  rfl

theorem reachable_roundInv (client : Client) (txID : String) (startRound timeout : Nat)
    (s0 s : LoopState) (h0 : RoundInv startRound s0) (h0r : s0.currentRound = startRound)
    (hr : Reachable client txID startRound timeout s0 s) :
    RoundInv startRound s ∧
      (startRound ≤ deadlineRound startRound timeout →
        s.currentRound ≤ deadlineRound startRound timeout) := by
  induction hr with
  | init => exact ⟨h0, fun h => by omega⟩
  | step _ hlt hb ih =>
    obtain ⟨h1, h2⟩ := roundInv_step client txID startRound timeout _ _ ih.1 hlt hb
    exact ⟨h1, fun _ => by omega⟩

theorem waitLoop_waitRounds (client : Client) (txID : String) (startRound timeout : Nat) :
    ∀ (n : Nat) (s : LoopState),
      deadlineRound startRound timeout - s.currentRound ≤ n →
      RoundInv startRound s →
      waitRounds (waitLoop client txID startRound timeout s).calls
        = List.range' startRound
            (waitCount (waitLoop client txID startRound timeout s).calls) := by
  intro n
  induction n with
  | zero =>
    intro s hn hinv
    rw [waitLoop_exit client txID startRound timeout s (by omega)]
    exact hinv.2
  | succ n ih =>
    intro s hn hinv
    by_cases hlt : s.currentRound < deadlineRound startRound timeout
    · cases hb : loopBody client txID s with
      | done r =>
        rw [waitLoop_done client txID startRound timeout s r hlt hb,
          loopBody_done_calls client txID s r hb, waitRounds_append, waitCount_append,
          hinv.2]
        show List.range' startRound (waitCount s.calls) ++ []
          = List.range' startRound (waitCount s.calls + 0)
        rw [List.append_nil, Nat.add_zero]
      | next s' =>
        obtain ⟨h1, h2⟩ := roundInv_step client txID startRound timeout s s' hinv hlt hb
        rw [waitLoop_next client txID startRound timeout s s' hlt hb]
        exact ih s' (by omega) h1
    · rw [waitLoop_exit client txID startRound timeout s hlt]
      exact hinv.2

/-- Claim C10 fails: with `lastRound = 100` and `timeoutRounds = 2^64 - 1`,
both in the 64-bit range, the start round is 101 and the deadline wraps to
100, so on entry to the loop the round counter, 101, exceeds the deadline. -/
theorem monotonic_rounds_counterexample :
    ∃ s, LoopPoint "TX" silentClient 18446744073709551615 s ∧
      s.currentRound = 101 ∧
      deadlineRound ((silentClient.status.status.lastRound + 1) % u64)
        18446744073709551615 = 100 ∧
      ¬ (s.currentRound
        ≤ deadlineRound ((silentClient.status.status.lastRound + 1) % u64)
            18446744073709551615) :=
  ⟨initState silentClient.status.status zeroResponse [Call.status],
    ⟨by decide, rfl, Reachable.init⟩, by decide, by decide, by decide⟩

/-- Claim C10 as amended: for every `lastRound` and `timeoutRounds`, with
`startRound = lastRound + 1` and `deadlineRound = startRound + timeoutRounds`
computed modulo `2^64`, at every loop state of every run: an iteration that
goes on increases the round counter by exactly 1 (without wrapping); the
round-waits made so far were issued for rounds `startRound`,
`startRound + 1`, ... in order, and so were those of the whole run; and, when
`startRound + timeoutRounds < 2^64` (the deadline does not wrap), the round
counter is at most the deadline. -/
theorem monotonic_rounds (txID : String) (c : Client) (N : Nat) (s : LoopState)
    (hs : LoopPoint txID c N s) :
    ((c.status.status.lastRound + 1) % u64 + N < u64 →
        s.currentRound ≤ deadlineRound ((c.status.status.lastRound + 1) % u64) N) ∧
      (∀ s', s.currentRound < deadlineRound ((c.status.status.lastRound + 1) % u64) N →
        loopBody c txID s = Step.next s' → s'.currentRound = s.currentRound + 1) ∧
      waitRounds s.calls
        = List.range' ((c.status.status.lastRound + 1) % u64) (waitCount s.calls) ∧
      waitRounds (waitForConfirmation txID (some c) N).calls
        = List.range' ((c.status.status.lastRound + 1) % u64)
            (waitCount (waitForConfirmation txID (some c) N).calls) := by
  obtain ⟨htx, hst, hr⟩ := hs
  obtain ⟨hinv, hle⟩ := reachable_roundInv c txID _ N _ s
    (roundInv_init c.status.status) rfl hr
  refine ⟨fun hb => hle ?_, fun s' hlt hb => ?_, hinv.2, ?_⟩
  · rw [deadlineRound, Nat.mod_eq_of_lt hb]
    exact Nat.le_add_right _ _
  · exact (roundInv_step c txID _ N s s' hinv hlt hb).2
  · rw [run_enters_loop txID c N htx hst]
    exact waitLoop_waitRounds c txID _ N _ _ (Nat.le_refl _) (roundInv_init c.status.status)

/-- Instance of C10 as amended, at the loop state after the first iteration of
the scenario of the specification (budget 4, node at round 100): the round
counter is 102, at most the deadline 105; the round-wait so far was for round
101, and those of the whole run for rounds 101, 102 and 103. -/
theorem monotonic_rounds_example :
    ((scenarioClient.status.status.lastRound + 1) % u64 + 4 < u64 →
        (idleState scenarioClient "TX"
          (initState scenarioClient.status.status zeroResponse [Call.status])).currentRound
          ≤ deadlineRound ((scenarioClient.status.status.lastRound + 1) % u64) 4) ∧
      (∀ s', (idleState scenarioClient "TX"
          (initState scenarioClient.status.status zeroResponse [Call.status])).currentRound
            < deadlineRound ((scenarioClient.status.status.lastRound + 1) % u64) 4 →
        loopBody scenarioClient "TX" (idleState scenarioClient "TX"
          (initState scenarioClient.status.status zeroResponse [Call.status])) = Step.next s' →
        s'.currentRound = (idleState scenarioClient "TX"
          (initState scenarioClient.status.status zeroResponse [Call.status])).currentRound + 1) ∧
      waitRounds (idleState scenarioClient "TX"
          (initState scenarioClient.status.status zeroResponse [Call.status])).calls
        = List.range' ((scenarioClient.status.status.lastRound + 1) % u64)
            (waitCount (idleState scenarioClient "TX"
              (initState scenarioClient.status.status zeroResponse [Call.status])).calls) ∧
      waitRounds (waitForConfirmation "TX" (some scenarioClient) 4).calls
        = List.range' ((scenarioClient.status.status.lastRound + 1) % u64)
            (waitCount (waitForConfirmation "TX" (some scenarioClient) 4).calls) :=
  monotonic_rounds "TX" scenarioClient 4 _
    ⟨by decide, rfl, Reachable.step Reachable.init (by decide)
      (loopBody_idle scenarioClient "TX" _ ⟨rfl, rfl, rfl⟩)⟩

end NFTAlgorand
